import Mathlib

/-!
Verification of the reversible-layer subsystem and the composite blocks of
`official/vision/modeling/layers/nn_blocks.py`.

The development has three parts.

Part 1 is a concrete tensor model (rank-4 arrays over the rationals, with the
channels-last axis order that is the default of the library) embedding the
shape-level operations used by `ReversibleLayer.call`: `tf.split` along the
channel axis, `tf.concat`, `tf.nn.avg_pool` with a square window equal to the
stride and VALID padding, channel zero-padding, and the helper
`_maybe_downsample`.  The inner blocks F and G are black boxes carrying a
stride and a tensor function, exactly as `ReversibleLayer` consumes them.

Part 2 is an algebraic model of the forward and backward passes of
`ReversibleLayer` in the reversible configuration (both strides 1 and output
channel count equal to the input channel count, where `_maybe_downsample` is
the identity; this is proved in part 1 as `maybeDownsample_stride_one`).
Activations live in an additive commutative group; an inner block is a value
function together with its vector-Jacobian products with respect to the input
and to each trainable variable, a list of trainable-variable reference ids,
and the update it performs on the moving statistics of its normalization
stages when called in training mode.  The value function does not read the
moving statistics: in training mode batch normalization normalizes with batch
statistics and only writes the moving averages, and the layer requires its
inner blocks to be stateless in this sense (docstring of `ReversibleLayer`).

Part 3 models the configuration records of `DepthwiseSeparableConvBlock`
(constructor arguments, `get_config`, and reconstruction through the keyword
dictionary as `from_config` does).
-/

namespace NNBlocks

/-! ## Part 1: concrete tensor model -/

/-- A rank-4 tensor in NHWC (channels-last) layout.  `data` is a total
function; only indices below the bounds are meaningful, and tensor equality
(`Tensor.EqTo`) compares data inside the bounds only. -/
structure Tensor where
  batch : Nat
  height : Nat
  width : Nat
  chans : Nat
  data : Nat → Nat → Nat → Nat → ℚ

/-- Equality of shape and of every in-range entry. -/
def Tensor.EqTo (t u : Tensor) : Prop :=
  t.batch = u.batch ∧ t.height = u.height ∧ t.width = u.width ∧ t.chans = u.chans ∧
    ∀ b < t.batch, ∀ i < t.height, ∀ j < t.width, ∀ k < t.chans,
      t.data b i j k = u.data b i j k

instance (t u : Tensor) : Decidable (t.EqTo u) := by
  unfold Tensor.EqTo; exact inferInstance

/-- Shape-and-data equality lifted to the optional results of a fallible call. -/
def optEqTo : Option Tensor → Option Tensor → Prop
  | some t, some u => t.EqTo u
  | none, none => True
  | _, _ => False

instance (a b : Option Tensor) : Decidable (optEqTo a b) := by
  unfold optEqTo
  match a, b with
  | some t, some u => exact inferInstance
  | some _, none => exact inferInstance
  | none, some _ => exact inferInstance
  | none, none => exact inferInstance

/-- Output length of a VALID pooling with window and stride both `s`
(`tf.nn.avg_pool(x, strides, strides, VALID)`): the number of whole windows,
`(n - s) / s + 1` when one fits and `0` otherwise. -/
def poolOutDim (n s : Nat) : Nat :=
  if s ≤ n then (n - s) / s + 1 else 0

/-- Sum of one `s` by `s` pooling window of `x` anchored at output position
`(i, j)` of batch `b`, channel `k`. -/
def windowSum (x : Tensor) (s b i j k : Nat) : ℚ :=
  ((List.range s).map (fun di =>
    ((List.range s).map (fun dj => x.data b (i * s + di) (j * s + dj) k)).sum)).sum

/-- `tf.nn.avg_pool` with window size equal to the stride (`_pad_strides`
turns the scalar stride into `(1, s, s, 1)` for NHWC) and VALID padding. -/
def avgPool (x : Tensor) (s : Nat) : Tensor where
  batch := x.batch
  height := poolOutDim x.height s
  width := poolOutDim x.width s
  chans := x.chans
  data := fun b i j k => windowSum x s b i j k / ((s : ℚ) * s)

/-- Zero-padding on the channel axis, `lo` channels below and `hi` above
(`tf.pad` with `[[0,0],[0,0],[0,0],[lo,hi]]` in NHWC). -/
def padChans (x : Tensor) (lo hi : Nat) : Tensor where
  batch := x.batch
  height := x.height
  width := x.width
  chans := lo + x.chans + hi
  data := fun b i j k =>
    if k < lo then 0 else if k < lo + x.chans then x.data b i j (k - lo) else 0

/-- The trailing `x + 0.` of `_maybe_downsample`. -/
def addZero (x : Tensor) : Tensor :=
  { x with data := fun b i j k => x.data b i j k + 0 }

/-- `_maybe_downsample(x, out_filter, strides, axis)` for the channels-last
axis: average-pool with the stride, then, if the channel count is still below
`out_filter`, zero-pad the channel axis half below and half above
(`(out_filter - in_filter) // 2` each), and finally add `0.`. -/
def maybeDownsample (x : Tensor) (out_filter strides : Nat) : Tensor :=
  let xp := avgPool x strides
  let xq :=
    if xp.chans < out_filter then
      padChans xp ((out_filter - xp.chans) / 2) ((out_filter - xp.chans) / 2)
    else xp
  addZero xq

/-- Pointwise tensor addition; the shape is taken from the first operand,
matching the shapes produced inside `ReversibleLayer.call` where the operands
agree. -/
def addT (x y : Tensor) : Tensor :=
  { x with data := fun b i j k => x.data b i j k + y.data b i j k }

/-- First half of a channel split in two. -/
def lowerHalf (x : Tensor) : Tensor :=
  { x with chans := x.chans / 2 }

/-- Second half of a channel split in two. -/
def upperHalf (x : Tensor) : Tensor :=
  { x with chans := x.chans / 2,
           data := fun b i j k => x.data b i j (k + x.chans / 2) }

/-- `tf.split(x, num_or_size_splits=2, axis=channel)`: the two equal halves
when the channel count is even, a fatal error (`none`) otherwise. -/
def split2 (x : Tensor) : Option (Tensor × Tensor) :=
  if x.chans % 2 = 0 then some (lowerHalf x, upperHalf x) else none

/-- `tf.concat([x, y], axis=channel)` for channels-last. -/
def concatC (x y : Tensor) : Tensor :=
  { x with chans := x.chans + y.chans,
           data := fun b i j k =>
             if k < x.chans then x.data b i j k else y.data b i j (k - x.chans) }

/-- An inner block (F or G) as `ReversibleLayer` consumes it at the shape
level: a declared stride and the tensor function of one call.  The training
flag is threaded through unchanged by the layer, so it is folded into the
function. -/
structure Inner where
  strides : Nat
  apply : Tensor → Tensor

/-- The output tensor of the forward pass of `ReversibleLayer.call.reversible`
(source lines 1131 to 1146), given that the channel split succeeded:
`f_x2 = F(x2)`, `x1_down = _maybe_downsample(x1, f_x2.chans, f.strides)`,
`z1 = f_x2 + x1_down`, `g_z1 = G(z1)`,
`x2_down = _maybe_downsample(x2, g_z1.chans, f.strides)` (the source passes
`self._f.strides` here as well), `y2 = x2_down + g_z1`, `y1 = identity(z1)`,
output `concat([y1, y2])`. -/
def fwdOutput (f g : Inner) (x : Tensor) : Tensor :=
  let x1 := lowerHalf x
  let x2 := upperHalf x
  let f_x2 := f.apply x2
  let x1_down := maybeDownsample x1 f_x2.chans f.strides
  let z1 := addT f_x2 x1_down
  let g_z1 := g.apply z1
  let x2_down := maybeDownsample x2 g_z1.chans f.strides
  let y2 := addT x2_down g_z1
  concatC z1 y2

/-- The forward call: split (fatal on an odd channel count), then the body of
`reversible`. -/
def reversibleForward (f g : Inner) (x : Tensor) : Option Tensor :=
  match split2 x with
  | none => none
  | some (x1, x2) =>
    let f_x2 := f.apply x2
    let x1_down := maybeDownsample x1 f_x2.chans f.strides
    let z1 := addT f_x2 x1_down
    let g_z1 := g.apply z1
    let x2_down := maybeDownsample x2 g_z1.chans f.strides
    let y2 := addT x2_down g_z1
    let y1 := z1
    some (concatC y1 y2)

/-- The forward pass as the specification describes it, differing from the
source in one place: `x2_down` is adjusted "using the shape/stride of G", that is,
`_maybe_downsample(x2, g_z1.chans, g.strides)`, where the source passes
`self._f.strides`. -/
def reversibleForwardSpec (f g : Inner) (x : Tensor) : Option Tensor :=
  match split2 x with
  | none => none
  | some (x1, x2) =>
    let f_x2 := f.apply x2
    let x1_down := maybeDownsample x1 f_x2.chans f.strides
    let z1 := addT f_x2 x1_down
    let g_z1 := g.apply z1
    let x2_down := maybeDownsample x2 g_z1.chans g.strides
    let y2 := addT x2_down g_z1
    let y1 := z1
    some (concatC y1 y2)

/-- The irreversibility flag computed once per forward call (source lines
1148 to 1149): either inner stride differs from 1, or the output channel
count differs from the input channel count. -/
def irreversibleFlag (f g : Inner) (x : Tensor) : Bool :=
  (f.strides != 1 || g.strides != 1) || ((fwdOutput f g x).chans != x.chans)

/-- The branch test of `grad_fn` (source line 1160): the automatic
differentiation fallback runs if and only if the forward-time flag is set or
manual gradients are disabled. -/
def usesFallback (f g : Inner) (manual_grads : Bool) (x : Tensor) : Bool :=
  irreversibleFlag f g x || !manual_grads

/-! ## Part 2: gradients and statistics of the reversible configuration

In the configuration in which the manual path may run (both strides 1 and
output channel count equal to the input channel count) `_maybe_downsample` is
the identity (`maybeDownsample_stride_one` below), so the forward algebra is
`z1 = F(x2) + x1`, `y2 = x2 + G(z1)`, `y1 = z1`.  The input and the output
live in the split representation: a pair of half tensors stands for the
tensor whose channel split (respectively channel concatenation) it is. -/

/-- An inner block of `ReversibleLayer` with the data the backward pass
consumes.  `tvars` is the list of reference ids of the trainable variables,
in the order of `trainable_variables`; `val` is the value of one call; `vjpx`
and `vjpw` are the vector-Jacobian products that `tape.gradient(out, [x] +
trainable_variables, output_gradients=dy)` returns for the input and for each
trainable variable (the tape is an external collaborator, modelled from the
spec as textbook reverse mode); `upd` is the update a call in training mode
performs on the list of non-trainable moving statistics.  `val` does not read
the statistics: training-mode batch normalization uses batch statistics and
only writes the moving averages, per the statelessness requirement in the
docstring of `ReversibleLayer`. -/
structure InnerBlock (V P : Type) where
  strides : Nat
  tvars : List Nat
  val : V → V
  vjpx : V → V → V
  vjpw : V → V → List P
  upd : List ℚ → V → List ℚ
  vjpw_length : ∀ x dy, (vjpw x dy).length = tvars.length

/-- The non-trainable (moving statistics) variables of F and of G. -/
structure RevState where
  fstats : List ℚ
  gstats : List ℚ
deriving DecidableEq

/-- `_load_ckpt_non_trainable_vars` on one block: `for v, v_chkpt in
zip(vars, ckpt): v.assign(v_chkpt)` — variables within the zip range take the
checkpoint value, variables beyond it (if any) keep their current value. -/
def assignZip (vars ckpt : List ℚ) : List ℚ :=
  ckpt.take vars.length ++ vars.drop ckpt.length

/-- The forward values `(y1, y2)` of the reversible configuration. -/
def revForward {V P : Type} [Add V] (f g : InnerBlock V P) (x1 x2 : V) : V × V :=
  let f_x2 := f.val x2
  let z1 := f_x2 + x1
  let g_z1 := g.val z1
  let y2 := x2 + g_z1
  (z1, y2)

/-- The statistics after the forward pass: the call of F on `x2` and the call
of G on `z1` each update the moving statistics of their block.  The snapshot
`_ckpt_non_trainable_vars` (source line 1153) captures exactly this state. -/
def forwardStats {V P : Type} [Add V] (f g : InnerBlock V P) (s : RevState)
    (x1 x2 : V) : RevState :=
  ⟨f.upd s.fstats x2, g.upd s.gstats (f.val x2 + x1)⟩

/-- The irreversibility flag in the split representation: the channel
comparison of the concrete model is abstracted into the boolean
`chansMismatch` (equal widths are inherent in the pair representation, so a
caller states the comparison outcome explicitly). -/
def irrevFlag {V P : Type} (f g : InnerBlock V P) (chansMismatch : Bool) : Bool :=
  (f.strides != 1 || g.strides != 1) || chansMismatch

/-- The input gradient the fallback branch produces:
`fwdtape.gradient(y, [x] + variables, output_gradients=dy)` differentiates the
recorded graph `z1 = F(x2) + x1`, `y1 = identity(z1)`, `y2 = x2 + G(z1)`,
`y = concat(y1, y2)` by reverse mode, giving `dz1 = dy1 + vjpx_G(z1, dy2)`,
`dx1 = dz1`, `dx2 = dy2 + vjpx_F(x2, dz1)`. -/
def fwdtapeGradX {V P : Type} [Add V] (f g : InnerBlock V P)
    (x1 x2 dy1 dy2 : V) : V × V :=
  let z1 := f.val x2 + x1
  let dz1 := dy1 + g.vjpx z1 dy2
  (dz1, dy2 + f.vjpx x2 dz1)

/-- The gradient the fallback branch produces for one requested variable of
reference id `v`: the contribution of the single op that consumes `v`, at the
position of `v` among the trainable variables of that block. -/
def fwdtapeGradVar {V P : Type} [Add V] [Inhabited P] (f g : InnerBlock V P)
    (x1 x2 dy1 dy2 : V) (v : Nat) : P :=
  let z1 := f.val x2 + x1
  let dz1 := dy1 + g.vjpx z1 dy2
  if v ∈ f.tvars then (f.vjpw x2 dz1).getD (f.tvars.indexOf v) default
  else (g.vjpw z1 dy2).getD (g.tvars.indexOf v) default

/-- The manual branch of `grad_fn` (source lines 1166 to 1209), transcribed
statement by statement: detach `y1` and `y2`; build the index map from the
trainable variables of F then G to the caller-supplied `variables`; recompute
`G(z1)` (updating the moving statistics of G) and recover `x2 = y2 - g_z1`;
recompute `F(x2)` (updating the moving statistics of F); take the two tape
gradients; pack `dx = (dx1, dx2)`; reorder `dwf + dwg` by the index map; and
finally restore both statistics lists from the checkpoint. -/
def gradFnManual {V P : Type} [Add V] [Sub V] [Inhabited P]
    (f g : InnerBlock V P) (y1 y2 dy1 dy2 : V) (reqVars : List Nat)
    (s ckpt : RevState) : (V × V) × List P × RevState :=
  let fg_var_refs := f.tvars ++ g.tvars
  let self_to_var_index := reqVars.map (fun v => fg_var_refs.indexOf v)
  let z1 := y1
  let sg1 := g.upd s.gstats z1
  let g_z1 := g.val z1
  let x2 := y2 - g_z1
  let sf1 := f.upd s.fstats x2
  let f_x2 := f.val x2
  let _x1 := z1 - f_x2
  let dz1 := dy1 + g.vjpx z1 dy2
  let dwg := g.vjpw z1 dy2
  let dx2 := dy2 + f.vjpx x2 dz1
  let dwf := f.vjpw x2 dz1
  let dx1 := dz1
  let grad_vars := dwf ++ dwg
  let grad_vars2 := self_to_var_index.map (fun i => grad_vars.getD i default)
  ((dx1, dx2), grad_vars2, ⟨assignZip sf1 ckpt.fstats, assignZip sg1 ckpt.gstats⟩)

/-- `grad_fn` (source lines 1155 to 1211): fallback when the forward-time
flag is set or manual gradients are disabled (leaving the statistics
untouched, since the tape does not re-execute F or G), the manual branch
otherwise. -/
def gradFn {V P : Type} [Add V] [Sub V] [Inhabited P] (f g : InnerBlock V P)
    (manual_grads irreversible : Bool) (x1 x2 y1 y2 dy1 dy2 : V)
    (reqVars : List Nat) (s ckpt : RevState) : (V × V) × List P × RevState :=
  if irreversible || !manual_grads then
    (fwdtapeGradX f g x1 x2 dy1 dy2,
     reqVars.map (fwdtapeGradVar f g x1 x2 dy1 dy2), s)
  else
    gradFnManual f g y1 y2 dy1 dy2 reqVars s ckpt

/-- Statistics of one full forward plus manual backward invocation: the
forward updates the statistics, the snapshot is taken right after the forward
(source line 1153), and `grad_fn` runs on the post-forward state with that
snapshot. -/
def forwardThenBackwardStats {V P : Type} [Add V] [Sub V] [Inhabited P]
    (f g : InnerBlock V P) (x1 x2 dy1 dy2 : V) (reqVars : List Nat)
    (s : RevState) : RevState :=
  let s1 := forwardStats f g s x1 x2
  let y := revForward f g x1 x2
  (gradFn f g true false x1 x2 y.1 y.2 dy1 dy2 reqVars s1 s1).2.2

/-- The statistics state observable if an error is raised during the
recomputation of F inside the manual branch: the recomputation of G has
already updated the moving statistics of G, the restore at the end of the
branch has not executed, and the source wraps the branch in no try/finally,
so the exception propagates with this state in place. -/
def statsIfErrorDuringF {V P : Type} (g : InnerBlock V P) (s : RevState)
    (y1 : V) : RevState :=
  ⟨s.fstats, g.upd s.gstats y1⟩

/-! ## Part 3: configuration records

`DepthwiseSeparableConvBlock.__init__` (source lines 1224 to 1237) stores its
eleven keyword options verbatim; `get_config` (lines 1286 to 1299) exports
nine of them, omitting `kernel_size` and `dilation_rate`.  Reconstruction,
`cls(**config)` as Keras `from_config` does, therefore falls back to the
declared defaults `kernel_size=3` and `dilation_rate=1`. -/

/-- The constructor options of `DepthwiseSeparableConvBlock`, which the
constructor stores verbatim on the instance. -/
structure DepthwiseSeparableConvBlockArgs where
  filters : Nat
  kernel_size : Nat := 3
  strides : Nat := 1
  regularize_depthwise : Bool := false
  activation : String := "relu6"
  kernel_initializer : String := "VarianceScaling"
  kernel_regularizer : Option String := none
  dilation_rate : Nat := 1
  use_sync_bn : Bool := false
  norm_momentum : ℚ := 99 / 100
  norm_epsilon : ℚ := 1 / 1000
deriving DecidableEq

/-- The keys `DepthwiseSeparableConvBlock.get_config` exports (source lines
1286 to 1299): `kernel_size` and `dilation_rate` are absent. -/
structure DepthwiseSeparableConvBlockConfig where
  filters : Nat
  strides : Nat
  regularize_depthwise : Bool
  kernel_initializer : String
  kernel_regularizer : Option String
  activation : String
  use_sync_bn : Bool
  norm_momentum : ℚ
  norm_epsilon : ℚ
deriving DecidableEq

/-- `get_config` of `DepthwiseSeparableConvBlock`. -/
def dwsbGetConfig (a : DepthwiseSeparableConvBlockArgs) :
    DepthwiseSeparableConvBlockConfig where
  filters := a.filters
  strides := a.strides
  regularize_depthwise := a.regularize_depthwise
  kernel_initializer := a.kernel_initializer
  kernel_regularizer := a.kernel_regularizer
  activation := a.activation
  use_sync_bn := a.use_sync_bn
  norm_momentum := a.norm_momentum
  norm_epsilon := a.norm_epsilon

/-- Reconstruction from an exported record: `cls(**config)`, with the
constructor defaults for the keyword options absent from the record. -/
def dwsbFromConfig (c : DepthwiseSeparableConvBlockConfig) :
    DepthwiseSeparableConvBlockArgs where
  filters := c.filters
  kernel_size := 3
  strides := c.strides
  regularize_depthwise := c.regularize_depthwise
  activation := c.activation
  kernel_initializer := c.kernel_initializer
  kernel_regularizer := c.kernel_regularizer
  dilation_rate := 1
  use_sync_bn := c.use_sync_bn
  norm_momentum := c.norm_momentum
  norm_epsilon := c.norm_epsilon

/-! ## Part 4: the residual condition of the composite blocks

`InvertedBottleneckBlock.call` (source lines 743 to 774) and
`TuckerConvBlock.call` (source lines 1518 to 1538) share the tail
```
if (self._use_residual and self._in_filters == self._out_filters and
    self._strides == 1):
  if self._stochastic_depth:
    x = self._stochastic_depth(x, training=training)
  x = self._add([x, shortcut])
```
The stages of the main branch are abstract functions here; the intermediate
endpoints output of `InvertedBottleneckBlock` does not interact with the
residual logic and is not modelled. -/

/-- `InvertedBottleneckBlock`: the configuration fields read by `call`,
with the built sub-layers as abstract functions (`stochastic_depth` and
`squeeze_excitation` are `none` exactly when `build` leaves them unset). -/
structure InvertedBottleneckBlock (V : Type) where
  in_filters : Nat
  out_filters : Nat
  expand_ratio : ℚ
  strides : Nat
  use_depthwise : Bool
  use_residual : Bool
  expandStage : V → V
  depthwiseStage : V → V
  squeeze_excitation : Option (V → V)
  projStage : V → V
  stochastic_depth : Option (V → Bool → V)

/-- The main branch of `InvertedBottleneckBlock.call`: optional expansion
(when `expand_ratio > 1`), optional depthwise stage, optional
squeeze-excitation, then the final projection convolution and norm. -/
def InvertedBottleneckBlock.main {V : Type} (c : InvertedBottleneckBlock V)
    (inputs : V) : V :=
  let x0 := if c.expand_ratio > 1 then c.expandStage inputs else inputs
  let x1 := if c.use_depthwise then c.depthwiseStage x0 else x0
  let x2 := match c.squeeze_excitation with
            | some se => se x1
            | none => x1
  c.projStage x2

/-- `InvertedBottleneckBlock.call`. -/
def InvertedBottleneckBlock.call {V : Type} [Add V]
    (c : InvertedBottleneckBlock V) (inputs : V) (training : Bool) : V :=
  let shortcut := inputs
  let x := c.main inputs
  if c.use_residual && (c.in_filters == c.out_filters) && (c.strides == 1) then
    (match c.stochastic_depth with
     | some sd => sd x training
     | none => x) + shortcut
  else x

/-- `TuckerConvBlock`: the configuration fields read by `call`, with the
three conv-norm-activation stages as abstract functions. -/
structure TuckerConvBlock (V : Type) where
  in_filters : Nat
  out_filters : Nat
  strides : Nat
  use_residual : Bool
  stage0 : V → V
  stage1 : V → V
  stage2 : V → V
  stochastic_depth : Option (V → Bool → V)

/-- The main branch of `TuckerConvBlock.call`. -/
def TuckerConvBlock.main {V : Type} (c : TuckerConvBlock V) (inputs : V) : V :=
  c.stage2 (c.stage1 (c.stage0 inputs))

/-- `TuckerConvBlock.call`. -/
def TuckerConvBlock.call {V : Type} [Add V] (c : TuckerConvBlock V)
    (inputs : V) (training : Bool) : V :=
  let shortcut := inputs
  let x := c.main inputs
  if c.use_residual && (c.in_filters == c.out_filters) && (c.strides == 1) then
    (match c.stochastic_depth with
     | some sd => sd x training
     | none => x) + shortcut
  else x

/-! ## Concrete instances used by witnesses and counterexamples -/

/-- A stride-1 identity inner block (shape level). -/
def cfId : Inner := ⟨1, id⟩

/-- A stride-2 identity inner block (shape level), used to witness that the
second `_maybe_downsample` uses the stride of F, not of G. -/
def cgStride2 : Inner := ⟨2, id⟩

/-- A concrete input: one batch element, two rows, one column, two channels,
entry `(b, i, j, k) = 4 * i`. -/
def cx : Tensor := ⟨1, 2, 1, 2, fun _ i _ _ => (4 * i : ℚ)⟩

/-- A concrete algebraic F block over rational activations: one trainable
variable with reference id 0. -/
def wfBlock : InnerBlock ℚ ℚ where
  strides := 1
  tvars := [0]
  val := fun x => 2 * x
  vjpx := fun _ dy => 2 * dy
  vjpw := fun x dy => [x * dy]
  upd := fun s _ => s.map (· + 1)
  vjpw_length := fun _ _ => rfl

/-- A concrete algebraic G block over rational activations: one trainable
variable with reference id 1, and a statistics update that doubles every
moving statistic (so a recomputation visibly perturbs the state). -/
def wgBlock : InnerBlock ℚ ℚ where
  strides := 1
  tvars := [1]
  val := fun x => x + 3
  vjpx := fun _ dy => dy
  vjpw := fun _ dy => [dy]
  upd := fun s _ => s.map (· * 2)
  vjpw_length := fun _ _ => rfl

/-- A concrete inverted-bottleneck configuration satisfying the residual
condition. -/
def cIbnYes : InvertedBottleneckBlock ℚ where
  in_filters := 8
  out_filters := 8
  expand_ratio := 6
  strides := 1
  use_depthwise := true
  use_residual := true
  expandStage := fun x => 2 * x
  depthwiseStage := fun x => x + 1
  squeeze_excitation := none
  projStage := fun x => 3 * x
  stochastic_depth := some (fun x _ => x / 2)

/-- A concrete Tucker configuration violating the residual condition
(`strides = 2`) while stochastic depth is configured. -/
def cTuckerNo : TuckerConvBlock ℚ where
  in_filters := 8
  out_filters := 8
  strides := 2
  use_residual := true
  stage0 := fun x => x + 1
  stage1 := fun x => 2 * x
  stage2 := fun x => x - 5
  stochastic_depth := some (fun x _ => x / 2)

/-- The failing configuration for the `DepthwiseSeparableConvBlock`
round-trip: non-default `kernel_size` and `dilation_rate`. -/
def cDwsbArgs : DepthwiseSeparableConvBlockArgs where
  filters := 8
  kernel_size := 5
  strides := 1
  regularize_depthwise := false
  activation := "relu6"
  kernel_initializer := "VarianceScaling"
  kernel_regularizer := none
  dilation_rate := 2
  use_sync_bn := false
  norm_momentum := 99 / 100
  norm_epsilon := 1 / 1000

/-! ## Helper lemmas -/

/-- VALID pooling with window and stride 1 keeps the extent. -/
theorem poolOutDim_one (n : Nat) : poolOutDim n 1 = n := by
  unfold poolOutDim
  rcases n with _ | m
  · simp
  · simp

/-- A 1 by 1 pooling window sums to the single entry. -/
theorem windowSum_one (x : Tensor) (b i j k : Nat) :
    windowSum x 1 b i j k = x.data b i j k := by
  unfold windowSum
  simp [List.range_succ]

/-- Bridge lemma: with stride 1 and a target channel count equal to the
input channel count, `_maybe_downsample` is the identity (up to the declared
bounds).  This is the configuration in which the manual-gradient path may
run, and it justifies omitting the downsample from the algebraic model of
part 2. -/
theorem maybeDownsample_stride_one (x : Tensor) (c : Nat) (hc : x.chans = c) :
    (maybeDownsample x c 1).EqTo x := by
  subst hc
  simp only [maybeDownsample]
  rw [show (avgPool x 1).chans = x.chans from rfl, if_neg (lt_irrefl x.chans)]
  refine ⟨rfl, poolOutDim_one _, poolOutDim_one _, rfl, ?_⟩
  intro b _ i _ j _ k _
  show windowSum x 1 b i j k / _ + 0 = x.data b i j k
  rw [windowSum_one]
  norm_num

/-- Restoring a checkpoint by pairwise assignment over a zip recovers the
checkpoint exactly when the variable list has kept its length. -/
theorem assignZip_eq {vars ckpt : List ℚ} (h : vars.length = ckpt.length) :
    assignZip vars ckpt = ckpt := by
  unfold assignZip
  rw [h, List.take_length, ← h, List.drop_length, List.append_nil]

/-- Looking up the entry at `indexOf a` in a concatenation of gradient lists
aligned with a concatenation of variable lists selects the gradient of `a`
inside the block that owns it. -/
theorem getD_append_indexOf {P : Type} [Inhabited P] {a : Nat}
    {l1 l2 : List Nat} {d1 d2 : List P} (h1 : d1.length = l1.length)
    (hmem : a ∈ l1 ++ l2) :
    (d1 ++ d2).getD ((l1 ++ l2).indexOf a) default =
      if a ∈ l1 then d1.getD (l1.indexOf a) default
      else d2.getD (l2.indexOf a) default := by
  by_cases hm : a ∈ l1
  · rw [if_pos hm, List.indexOf_append_of_mem hm]
    have hlt : l1.indexOf a < d1.length := by
      rw [h1]; exact List.indexOf_lt_length.2 hm
    rw [List.getD_eq_getElem?_getD, List.getD_eq_getElem?_getD,
        List.getElem?_append, if_pos hlt]
  · have hm2 : a ∈ l2 := by
      rcases List.mem_append.1 hmem with h | h
      · exact absurd h hm
      · exact h
    rw [if_neg hm, List.indexOf_append_of_not_mem hm]
    have hge : d1.length ≤ l1.length + l2.indexOf a := by
      rw [h1]; exact Nat.le_add_right _ _
    rw [List.getD_eq_getElem?_getD, List.getD_eq_getElem?_getD,
        List.getElem?_append_right hge, h1, Nat.add_sub_cancel_left]

/-! ## Claims -/

/-- Claim C3, counterexample.  The claim states that `x2_down` is adjusted
using the shape and the stride of G; the source passes the stride of F
(`self._f.strides`, line 1139).  With F the stride-1 identity, G the stride-2
identity, and the concrete input `cx` (shape 1 by 2 by 1 by 2), the forward
output of the source differs from the output prescribed by the claim. -/
theorem reversible_forward_spec_stride_counterexample :
    ¬ optEqTo (reversibleForward cfId cgStride2 cx)
        (reversibleForwardSpec cfId cgStride2 cx) := by
  intro h
  obtain ⟨-, -, -, -, hd0⟩ := h
  have hd := hd0 0 Nat.zero_lt_one 0 Nat.zero_lt_two 0 Nat.zero_lt_one 1
    Nat.one_lt_two
  simp only [reversibleForward, reversibleForwardSpec, split2, cfId, cgStride2,
    cx, lowerHalf, upperHalf, concatC, addT, maybeDownsample, avgPool, addZero,
    windowSum, poolOutDim, id] at hd
  norm_num [List.range_succ] at hd

/-- Claim C3, amended: for every input with an even channel count, the
forward output is `concat(y1, y2)` with `z1 = F(x2) + x1_down`,
`x1_down = _maybe_downsample(x1, chans(F(x2)), F.strides)`,
`y2 = x2_down + G(z1)` with
`x2_down = _maybe_downsample(x2, chans(G(z1)), F.strides)` — the target
channel count of G but the stride of F — and `y1 = identity(z1)`; this is the step
structure recorded in `fwdOutput`. -/
theorem reversible_forward_structure (f g : Inner) (x : Tensor)
    (h : x.chans % 2 = 0) :
    reversibleForward f g x = some (fwdOutput f g x) := by
  simp [reversibleForward, split2, fwdOutput, h]

/-- Claim C3, witness for the amended theorem at the concrete input `cx`. -/
theorem reversible_forward_structure_witness :
    cx.chans % 2 = 0 ∧ reversibleForward cfId cfId cx = some (fwdOutput cfId cfId cx) :=
  ⟨by decide, reversible_forward_structure cfId cfId cx (by decide)⟩

/-- Claim C4: the backward pass takes the automatic-differentiation fallback
if and only if the stride of F is not 1, or the stride of G is not 1, or the
output channel count differs from the input channel count, or manual
gradients are disabled.  The flag `irreversibleFlag` is a value of the
forward call that `grad_fn` closes over, so it is computed once per forward
call by construction. -/
theorem reversible_fallback_branch_iff (f g : Inner) (m : Bool) (x : Tensor) :
    usesFallback f g m x = true ↔
      (f.strides ≠ 1 ∨ g.strides ≠ 1 ∨ (fwdOutput f g x).chans ≠ x.chans ∨
        m = false) := by
  simp [usesFallback, irreversibleFlag, Bool.or_eq_true, bne_iff_ne,
    Bool.not_eq_true', or_assoc]

/-- Claim C8: the forward call fails (fatally, with no retry: the result is
`none`) exactly when the channel count is odd; on an even channel count the
split succeeds and yields two halves with `chans / 2` channels each. -/
theorem reversible_split_even_channels (f g : Inner) (x : Tensor) :
    (reversibleForward f g x = none ↔ ¬ x.chans % 2 = 0) ∧
    (x.chans % 2 = 0 →
      split2 x = some (lowerHalf x, upperHalf x) ∧
      (lowerHalf x).chans = x.chans / 2 ∧ (upperHalf x).chans = x.chans / 2) := by
  constructor
  · by_cases h : x.chans % 2 = 0 <;> simp [reversibleForward, split2, h]
  · intro h
    exact ⟨by simp [split2, h], rfl, rfl⟩

/-- Claim C8, witness at the concrete even-channel input `cx`. -/
theorem reversible_split_even_channels_witness :
    cx.chans % 2 = 0 ∧
    (split2 cx = some (lowerHalf cx, upperHalf cx) ∧
      (lowerHalf cx).chans = cx.chans / 2 ∧ (upperHalf cx).chans = cx.chans / 2) :=
  ⟨by decide, (reversible_split_even_channels cfId cfId cx).2 (by decide)⟩

/-- Unfolding of the manual branch into its result components, with the list
reorder fused (`(reqVars.map indexOf).map lookup = reqVars.map (lookup of
indexOf)`). -/
theorem gradFnManual_eq {V P : Type} [Add V] [Sub V] [Inhabited P]
    (f g : InnerBlock V P) (y1 y2 dy1 dy2 : V) (reqVars : List Nat)
    (s ckpt : RevState) :
    gradFnManual f g y1 y2 dy1 dy2 reqVars s ckpt =
      ((dy1 + g.vjpx y1 dy2,
        dy2 + f.vjpx (y2 - g.val y1) (dy1 + g.vjpx y1 dy2)),
       reqVars.map (fun v =>
         (f.vjpw (y2 - g.val y1) (dy1 + g.vjpx y1 dy2) ++
             g.vjpw y1 dy2).getD ((f.tvars ++ g.tvars).indexOf v) default),
       ⟨assignZip (f.upd s.fstats (y2 - g.val y1)) ckpt.fstats,
        assignZip (g.upd s.gstats y1) ckpt.gstats⟩) := by
  simp only [gradFnManual]
  rw [List.map_map]
  rfl

/-- Claim C5: the manual backward branch, applied to the detached forward
outputs `(y1, y2)` of the forward pass on `(x1, x2)`, recovers `x2` as
`y2 - G(y1)` exactly; its input gradient is the pair (the channel
concatenation, in the split representation) of `dx1 = dz1` and
`dx2 = dy2 + vjpx_F(x2, dz1)` with `dz1 = dy1 + vjpx_G(z1, dy2)` and
`z1 = y1`; and its parameter-gradient list maps each requested variable to
the entry of `dwf ++ dwg` at the position of that variable among the
trainable variables of F followed by those of G, where `dwf` and `dwg` are
the vector-Jacobian products of the recomputations of F and G against `dz1`
and `dy2`. -/
theorem reversible_manual_backward_formulas {V P : Type} [AddCommGroup V]
    [Inhabited P] (f g : InnerBlock V P) (x1 x2 dy1 dy2 : V)
    (reqVars : List Nat) (s ckpt : RevState) :
    (revForward f g x1 x2).2 - g.val (revForward f g x1 x2).1 = x2 ∧
    (gradFnManual f g (revForward f g x1 x2).1 (revForward f g x1 x2).2
        dy1 dy2 reqVars s ckpt).1 =
      (dy1 + g.vjpx (revForward f g x1 x2).1 dy2,
       dy2 + f.vjpx x2 (dy1 + g.vjpx (revForward f g x1 x2).1 dy2)) ∧
    (gradFnManual f g (revForward f g x1 x2).1 (revForward f g x1 x2).2
        dy1 dy2 reqVars s ckpt).2.1 =
      reqVars.map (fun v =>
        (f.vjpw x2 (dy1 + g.vjpx (revForward f g x1 x2).1 dy2) ++
            g.vjpw (revForward f g x1 x2).1 dy2).getD
          ((f.tvars ++ g.tvars).indexOf v) default) := by
  have hx2 : (revForward f g x1 x2).2 - g.val (revForward f g x1 x2).1 = x2 := by
    show x2 + g.val (f.val x2 + x1) - g.val (f.val x2 + x1) = x2
    exact add_sub_cancel_right x2 _
  refine ⟨hx2, ?_, ?_⟩
  · rw [gradFnManual_eq, hx2]
  · rw [gradFnManual_eq, hx2]

/-- Claim C1: in a reversible configuration (both strides 1, matching
channel counts so the mismatch flag is false) with manual gradients enabled,
the manual branch of `grad_fn` applied to the forward outputs produces the
same input gradient and, for every requested list of trainable variables of
F or G, the same per-variable gradients as the automatic-differentiation
fallback branch run on the same forward state and the same `dy` (equality is
exact in the rational model, standing in for the floating-point tolerance of
the spec). -/
theorem reversible_manual_grads_eq_autodiff {V P : Type} [AddCommGroup V]
    [Inhabited P] (f g : InnerBlock V P) (x1 x2 dy1 dy2 : V)
    (reqVars : List Nat) (s ckpt : RevState)
    (hf : f.strides = 1) (hg : g.strides = 1)
    (hmem : reqVars ⊆ f.tvars ++ g.tvars) :
    (gradFn f g true (irrevFlag f g false) x1 x2 (revForward f g x1 x2).1
        (revForward f g x1 x2).2 dy1 dy2 reqVars s ckpt).1 =
      (gradFn f g false (irrevFlag f g false) x1 x2 (revForward f g x1 x2).1
        (revForward f g x1 x2).2 dy1 dy2 reqVars s ckpt).1 ∧
    (gradFn f g true (irrevFlag f g false) x1 x2 (revForward f g x1 x2).1
        (revForward f g x1 x2).2 dy1 dy2 reqVars s ckpt).2.1 =
      (gradFn f g false (irrevFlag f g false) x1 x2 (revForward f g x1 x2).1
        (revForward f g x1 x2).2 dy1 dy2 reqVars s ckpt).2.1 := by
  have hflag : irrevFlag f g false = false := by
    simp [irrevFlag, hf, hg]
  have hx2 : (revForward f g x1 x2).2 - g.val (revForward f g x1 x2).1 = x2 := by
    show x2 + g.val (f.val x2 + x1) - g.val (f.val x2 + x1) = x2
    exact add_sub_cancel_right x2 _
  rw [hflag]
  have hmain : gradFn f g true false x1 x2 (revForward f g x1 x2).1
      (revForward f g x1 x2).2 dy1 dy2 reqVars s ckpt =
      gradFnManual f g (revForward f g x1 x2).1 (revForward f g x1 x2).2
        dy1 dy2 reqVars s ckpt := rfl
  have hfall : gradFn f g false false x1 x2 (revForward f g x1 x2).1
      (revForward f g x1 x2).2 dy1 dy2 reqVars s ckpt =
      (fwdtapeGradX f g x1 x2 dy1 dy2,
       reqVars.map (fwdtapeGradVar f g x1 x2 dy1 dy2), s) := rfl
  rw [hmain, hfall, gradFnManual_eq, hx2]
  constructor
  · rfl
  · show List.map _ reqVars = List.map _ reqVars
    refine List.map_congr_left ?_
    intro v hv
    have hvmem : v ∈ f.tvars ++ g.tvars := hmem hv
    rw [getD_append_indexOf (f.vjpw_length _ _) hvmem]
    rfl

/-- Claim C1, witness: the theorem applied to the concrete blocks `wfBlock`
and `wgBlock`, input halves 1 and 2, output gradient halves 1 and 1, the
requested variable list `[1, 0]` (the variable of G first), and statistics
⟨[0], [1]⟩. -/
theorem reversible_manual_grads_eq_autodiff_witness :
    wfBlock.strides = 1 ∧ wgBlock.strides = 1 ∧
    ([1, 0] : List Nat) ⊆ wfBlock.tvars ++ wgBlock.tvars ∧
    ((gradFn wfBlock wgBlock true (irrevFlag wfBlock wgBlock false) (1 : ℚ) 2
        (revForward wfBlock wgBlock (1 : ℚ) 2).1
        (revForward wfBlock wgBlock (1 : ℚ) 2).2 1 1 [1, 0] ⟨[0], [1]⟩
        ⟨[0], [1]⟩).1 =
      (gradFn wfBlock wgBlock false (irrevFlag wfBlock wgBlock false) (1 : ℚ) 2
        (revForward wfBlock wgBlock (1 : ℚ) 2).1
        (revForward wfBlock wgBlock (1 : ℚ) 2).2 1 1 [1, 0] ⟨[0], [1]⟩
        ⟨[0], [1]⟩).1 ∧
    (gradFn wfBlock wgBlock true (irrevFlag wfBlock wgBlock false) (1 : ℚ) 2
        (revForward wfBlock wgBlock (1 : ℚ) 2).1
        (revForward wfBlock wgBlock (1 : ℚ) 2).2 1 1 [1, 0] ⟨[0], [1]⟩
        ⟨[0], [1]⟩).2.1 =
      (gradFn wfBlock wgBlock false (irrevFlag wfBlock wgBlock false) (1 : ℚ) 2
        (revForward wfBlock wgBlock (1 : ℚ) 2).1
        (revForward wfBlock wgBlock (1 : ℚ) 2).2 1 1 [1, 0] ⟨[0], [1]⟩
        ⟨[0], [1]⟩).2.1) :=
  ⟨rfl, rfl, by decide,
   reversible_manual_grads_eq_autodiff wfBlock wgBlock 1 2 1 1 [1, 0]
     ⟨[0], [1]⟩ ⟨[0], [1]⟩ rfl rfl (by decide)⟩

/-- Claim C2: for a forward-plus-backward invocation through the manual
path, the non-trainable statistics after the backward pass equal the values
snapshotted immediately after the forward pass, which are exactly the
statistics of a forward pass alone; the backward recomputation does not
permanently change them.  The two hypotheses state that the recomputation
updates preserve the number of statistic variables (true of batch
normalization, which has a fixed variable set). -/
theorem reversible_backward_restores_batch_stats {V P : Type} [AddCommGroup V]
    [Inhabited P] (f g : InnerBlock V P) (x1 x2 dy1 dy2 : V)
    (reqVars : List Nat) (s : RevState)
    (hA : (f.upd (forwardStats f g s x1 x2).fstats
        ((revForward f g x1 x2).2 - g.val (revForward f g x1 x2).1)).length =
      (forwardStats f g s x1 x2).fstats.length)
    (hB : (g.upd (forwardStats f g s x1 x2).gstats
        (revForward f g x1 x2).1).length =
      (forwardStats f g s x1 x2).gstats.length) :
    forwardThenBackwardStats f g x1 x2 dy1 dy2 reqVars s =
      forwardStats f g s x1 x2 := by
  show (gradFnManual f g (revForward f g x1 x2).1 (revForward f g x1 x2).2
      dy1 dy2 reqVars (forwardStats f g s x1 x2)
      (forwardStats f g s x1 x2)).2.2 = forwardStats f g s x1 x2
  rw [gradFnManual_eq]
  show (⟨assignZip (f.upd (forwardStats f g s x1 x2).fstats
        ((revForward f g x1 x2).2 - g.val (revForward f g x1 x2).1))
        (forwardStats f g s x1 x2).fstats,
      assignZip (g.upd (forwardStats f g s x1 x2).gstats
        (revForward f g x1 x2).1)
        (forwardStats f g s x1 x2).gstats⟩ : RevState) =
    forwardStats f g s x1 x2
  rw [assignZip_eq hA, assignZip_eq hB]

/-- Claim C2, witness: the theorem applied to the concrete blocks with
initial statistics ⟨[0], [1]⟩. -/
theorem reversible_backward_restores_batch_stats_witness :
    (wfBlock.upd (forwardStats wfBlock wgBlock ⟨[0], [1]⟩ (1 : ℚ) 2).fstats
        ((revForward wfBlock wgBlock (1 : ℚ) 2).2 -
          wgBlock.val (revForward wfBlock wgBlock (1 : ℚ) 2).1)).length =
      (forwardStats wfBlock wgBlock ⟨[0], [1]⟩ (1 : ℚ) 2).fstats.length ∧
    (wgBlock.upd (forwardStats wfBlock wgBlock ⟨[0], [1]⟩ (1 : ℚ) 2).gstats
        (revForward wfBlock wgBlock (1 : ℚ) 2).1).length =
      (forwardStats wfBlock wgBlock ⟨[0], [1]⟩ (1 : ℚ) 2).gstats.length ∧
    forwardThenBackwardStats wfBlock wgBlock (1 : ℚ) 2 1 1 [0, 1] ⟨[0], [1]⟩ =
      forwardStats wfBlock wgBlock ⟨[0], [1]⟩ 1 2 :=
  ⟨by simp [wfBlock, forwardStats], by simp [wgBlock, forwardStats],
   reversible_backward_restores_batch_stats wfBlock wgBlock 1 2 1 1 [0, 1]
     ⟨[0], [1]⟩ (by simp [wfBlock, forwardStats])
     (by simp [wgBlock, forwardStats])⟩

/-- Claim C6: the gradient list returned by the manual branch has one entry
per requested variable, and its i-th entry is the gradient of the i-th
requested variable: the entry of `dwf ++ dwg` at the position of that
variable among the trainable variables of F followed by those of G (inside
the sublist of F when the variable belongs to F, inside the sublist of G otherwise). -/
theorem reversible_grad_vars_reordered {V P : Type} [Add V] [Sub V]
    [Inhabited P] (f g : InnerBlock V P) (y1 y2 dy1 dy2 : V)
    (reqVars : List Nat) (s ckpt : RevState)
    (hmem : reqVars ⊆ f.tvars ++ g.tvars) (i : Nat)
    (hi : i < reqVars.length) :
    ((gradFnManual f g y1 y2 dy1 dy2 reqVars s ckpt).2.1).length =
      reqVars.length ∧
    ((gradFnManual f g y1 y2 dy1 dy2 reqVars s ckpt).2.1).getD i default =
      (if reqVars.getD i 0 ∈ f.tvars then
        (f.vjpw (y2 - g.val y1) (dy1 + g.vjpx y1 dy2)).getD
          (f.tvars.indexOf (reqVars.getD i 0)) default
       else
        (g.vjpw y1 dy2).getD (g.tvars.indexOf (reqVars.getD i 0)) default) := by
  rw [gradFnManual_eq]
  have hgd : reqVars.getD i 0 = reqVars[i] := by
    rw [List.getD_eq_getElem?_getD, List.getElem?_eq_getElem hi]
    rfl
  refine ⟨List.length_map _ _, ?_⟩
  rw [hgd, List.getD_eq_getElem?_getD, List.getElem?_map,
      List.getElem?_eq_getElem hi]
  show (f.vjpw (y2 - g.val y1) (dy1 + g.vjpx y1 dy2) ++ g.vjpw y1 dy2).getD
      ((f.tvars ++ g.tvars).indexOf reqVars[i]) default = _
  rw [getD_append_indexOf (f.vjpw_length _ _) (hmem (List.getElem_mem hi))]

/-- Claim C6, witness: requested list `[1, 0]` (the variable of G requested
first), position 0. -/
theorem reversible_grad_vars_reordered_witness :
    ([1, 0] : List Nat) ⊆ wfBlock.tvars ++ wgBlock.tvars ∧
    0 < ([1, 0] : List Nat).length ∧
    (((gradFnManual wfBlock wgBlock (3 : ℚ) 4 1 2 [1, 0] ⟨[0], [1]⟩
        ⟨[0], [1]⟩).2.1).length = ([1, 0] : List Nat).length ∧
    ((gradFnManual wfBlock wgBlock (3 : ℚ) 4 1 2 [1, 0] ⟨[0], [1]⟩
        ⟨[0], [1]⟩).2.1).getD 0 default =
      (if ([1, 0] : List Nat).getD 0 0 ∈ wfBlock.tvars then
        (wfBlock.vjpw ((4 : ℚ) - wgBlock.val 3)
            ((1 : ℚ) + wgBlock.vjpx 3 2)).getD
          (wfBlock.tvars.indexOf (([1, 0] : List Nat).getD 0 0)) default
       else
        (wgBlock.vjpw (3 : ℚ) 2).getD
          (wgBlock.tvars.indexOf (([1, 0] : List Nat).getD 0 0)) default)) :=
  ⟨by decide, by decide,
   reversible_grad_vars_reordered wfBlock wgBlock 3 4 1 2 [1, 0] ⟨[0], [1]⟩
     ⟨[0], [1]⟩ (by decide) 0 (by decide)⟩

/-- Claim C7 (amended): within the manual branch the checkpoint restore is
the final statement of the normal exit path, so on normal completion the
statistics equal the checkpoint (given that the recomputation updates
preserve the variable counts); the state observable if the recomputation of
F raises midway is the partial one — the statistics of G already updated by
its recomputation, the statistics of F untouched, and no restore applied —
because the source wraps the recomputation in no try/finally. -/
theorem reversible_restore_exit_paths {V P : Type} [Add V] [Sub V]
    [Inhabited P] (f g : InnerBlock V P) (y1 y2 dy1 dy2 : V)
    (reqVars : List Nat) (s ckpt : RevState)
    (hA : (f.upd s.fstats (y2 - g.val y1)).length = ckpt.fstats.length)
    (hB : (g.upd s.gstats y1).length = ckpt.gstats.length) :
    (gradFnManual f g y1 y2 dy1 dy2 reqVars s ckpt).2.2 = ckpt ∧
    statsIfErrorDuringF g s y1 = ⟨s.fstats, g.upd s.gstats y1⟩ := by
  refine ⟨?_, rfl⟩
  rw [gradFnManual_eq]
  show (⟨assignZip (f.upd s.fstats (y2 - g.val y1)) ckpt.fstats,
      assignZip (g.upd s.gstats y1) ckpt.gstats⟩ : RevState) = ckpt
  rw [assignZip_eq hA, assignZip_eq hB]

/-- Claim C7, witness for the amended theorem at the concrete blocks. -/
theorem reversible_restore_exit_paths_witness :
    (wfBlock.upd ([0] : List ℚ) ((4 : ℚ) - wgBlock.val 3)).length =
      ([0] : List ℚ).length ∧
    (wgBlock.upd ([1] : List ℚ) (3 : ℚ)).length = ([1] : List ℚ).length ∧
    ((gradFnManual wfBlock wgBlock (3 : ℚ) 4 1 2 [0, 1] ⟨[0], [1]⟩
        ⟨[0], [1]⟩).2.2 = (⟨[0], [1]⟩ : RevState) ∧
    statsIfErrorDuringF wgBlock ⟨[0], [1]⟩ (3 : ℚ) =
      ⟨([0] : List ℚ), wgBlock.upd [1] 3⟩) :=
  ⟨by simp [wfBlock], by simp [wgBlock],
   reversible_restore_exit_paths wfBlock wgBlock 3 4 1 2 [0, 1] ⟨[0], [1]⟩
     ⟨[0], [1]⟩ (by simp [wfBlock]) (by simp [wgBlock])⟩

/-- Claim C7, counterexample: with the concrete G block (whose statistics
update doubles every entry) and the post-forward snapshot ⟨[0], [1]⟩, an
error raised during the recomputation of F leaves the observable statistics
at ⟨[0], [2]⟩, different from the snapshot: the partial update is observable
on the failure path, so the restore is not executed on every exit path as
the claim states. -/
theorem reversible_restore_failure_path_counterexample :
    statsIfErrorDuringF wgBlock ⟨[0], [1]⟩ (5 : ℚ) ≠ (⟨[0], [1]⟩ : RevState) := by
  intro h
  have h2 := congrArg RevState.gstats h
  simp only [statsIfErrorDuringF, wgBlock, List.map_cons, List.map_nil] at h2
  norm_num at h2

/-- Claim C9 (code bug): the configuration round trip of
`DepthwiseSeparableConvBlock` loses `kernel_size` and `dilation_rate`:
`get_config` omits both keys, so reconstruction falls back to the
constructor defaults 3 and 1, and an instance built with `kernel_size=5`,
`dilation_rate=2` does not round-trip. -/
theorem depthwise_separable_config_roundtrip_loses_options :
    dwsbFromConfig (dwsbGetConfig cDwsbArgs) ≠ cDwsbArgs ∧
    (dwsbFromConfig (dwsbGetConfig cDwsbArgs)).kernel_size = 3 ∧
    cDwsbArgs.kernel_size = 5 ∧
    (dwsbFromConfig (dwsbGetConfig cDwsbArgs)).dilation_rate = 1 ∧
    cDwsbArgs.dilation_rate = 2 := by
  refine ⟨?_, rfl, rfl, rfl, rfl⟩
  intro h
  have h2 := congrArg DepthwiseSeparableConvBlockArgs.kernel_size h
  simp [dwsbFromConfig, dwsbGetConfig, cDwsbArgs] at h2

/-- Claim C10: in `InvertedBottleneckBlock.call` and `TuckerConvBlock.call`
the residual addition of the input to the main-branch output happens exactly
when `use_residual` holds, the input and output filter counts agree, and the
stride is 1; otherwise the output is the main branch alone, with stochastic
depth applied only together with the residual addition. -/
theorem residual_connection_condition {V : Type} [Add V]
    (cI : InvertedBottleneckBlock V) (cT : TuckerConvBlock V) (x : V)
    (tr : Bool) :
    ((cI.use_residual = true ∧ cI.in_filters = cI.out_filters ∧
        cI.strides = 1) →
      cI.call x tr =
        (match cI.stochastic_depth with
         | some sd => sd (cI.main x) tr
         | none => cI.main x) + x) ∧
    (¬ (cI.use_residual = true ∧ cI.in_filters = cI.out_filters ∧
        cI.strides = 1) →
      cI.call x tr = cI.main x) ∧
    ((cT.use_residual = true ∧ cT.in_filters = cT.out_filters ∧
        cT.strides = 1) →
      cT.call x tr =
        (match cT.stochastic_depth with
         | some sd => sd (cT.main x) tr
         | none => cT.main x) + x) ∧
    (¬ (cT.use_residual = true ∧ cT.in_filters = cT.out_filters ∧
        cT.strides = 1) →
      cT.call x tr = cT.main x) := by
  refine ⟨?_, ?_, ?_, ?_⟩
  · rintro ⟨h1, h2, h3⟩
    simp [InvertedBottleneckBlock.call, h1, h2, h3]
  · intro hn
    have hb : (cI.use_residual && (cI.in_filters == cI.out_filters) &&
        (cI.strides == 1)) = false := by
      rcases Bool.eq_false_or_eq_true (cI.use_residual &&
          (cI.in_filters == cI.out_filters) && (cI.strides == 1)) with h | h
      · exfalso
        apply hn
        simp only [Bool.and_eq_true, beq_iff_eq] at h
        exact ⟨h.1.1, h.1.2, h.2⟩
      · exact h
    simp [InvertedBottleneckBlock.call, hb]
  · rintro ⟨h1, h2, h3⟩
    simp [TuckerConvBlock.call, h1, h2, h3]
  · intro hn
    have hb : (cT.use_residual && (cT.in_filters == cT.out_filters) &&
        (cT.strides == 1)) = false := by
      rcases Bool.eq_false_or_eq_true (cT.use_residual &&
          (cT.in_filters == cT.out_filters) && (cT.strides == 1)) with h | h
      · exfalso
        apply hn
        simp only [Bool.and_eq_true, beq_iff_eq] at h
        exact ⟨h.1.1, h.1.2, h.2⟩
      · exact h
    simp [TuckerConvBlock.call, hb]

/-- Claim C10, witness: a configuration satisfying the residual condition
(with stochastic depth configured) and one violating it through its stride. -/
theorem residual_connection_condition_witness :
    (cIbnYes.use_residual = true ∧ cIbnYes.in_filters = cIbnYes.out_filters ∧
      cIbnYes.strides = 1) ∧
    ¬ (cTuckerNo.use_residual = true ∧
        cTuckerNo.in_filters = cTuckerNo.out_filters ∧
        cTuckerNo.strides = 1) ∧
    cIbnYes.call (7 : ℚ) true =
      (match cIbnYes.stochastic_depth with
       | some sd => sd (cIbnYes.main 7) true
       | none => cIbnYes.main 7) + 7 ∧
    cTuckerNo.call (7 : ℚ) true = cTuckerNo.main 7 :=
  ⟨⟨rfl, rfl, rfl⟩, by intro h; exact absurd h.2.2 (by decide),
   (residual_connection_condition cIbnYes cTuckerNo 7 true).1 ⟨rfl, rfl, rfl⟩,
   (residual_connection_condition cIbnYes cTuckerNo 7 true).2.2.2
     (by intro h; exact absurd h.2.2 (by decide))⟩

end NNBlocks
